import Mathlib

/-!
Shallow embedding of src/xomxplayer.c: event classification, key routing
(keypress), the debounce and supervisor loop in main (select timeout branch,
poll-error branch, XPending drain), and the post-loop shutdown escalation.

Modelling conventions:
- machine integers become Int/Nat (all values in real runs stay far from
  any overflow boundary, so no wrap-around is modelled);
- the framebuffer scale factors sx, sy are fixed at their default 1.0
  (if /dev/fb0 is unavailable setScale leaves them at 1.0), so the float
  divisions width/sx etc. in the ConfigureNotify handler are the identity
  and geometry stays integral;
- fixed-size string buffers (winParam, resizeParam) become unbounded
  strings; for realistic coordinates snprintf never truncates;
- fork/waitpid/select results are oracle inputs supplied to each step;
- the C locals wx, wy, ww, wh and omxplayer_pid are uninitialized at
  declaration; omxplayer_pid is modelled as Option Int with none meaning
  "never written" (a read of it while none is undefined behaviour in C;
  the model makes the pid comparison fail and the shutdown decision
  indeterminate in that case), while wx..wh are given arbitrary initial
  value 0 (they are only read when evc > 0, which implies they were
  written by a ConfigureNotify handler).
-/

/- X keysyms used in the source (numeric values from X11/keysymdef.h). -/

def quitKey : Nat := 0x71

def fullScreenKey : Nat := 0x66

/-- The command vectors of the source, identified by the executable they
run and the mutable parameter buffer contents they reference at spawn
time (winParam for omxplayer, resizeParam for resize_player). -/
inductive Cmd where
  | omxplayer (winParam : String)
  | quit_player
  | resize_player (resizeParam : String)
  | hide_video
  | unhide_video
  | pause_player
  | stop_player
  | seek_back_small
  | seek_forward_small
  | seek_back_large
  | seek_forward_large
  | toggle_subtitle
deriving DecidableEq

/-- Observable actions of the controller: a spawn of an external command,
or the XSendEvent performed by toggleFS. -/
inductive Act where
  | spawn (c : Cmd)
  | toggleFS
deriving DecidableEq

/-- Visibility sub-states tested in the VisibilityNotify handler. -/
inductive VisState where
  | unobscured
  | partiallyObscured
  | fullyObscured
deriving DecidableEq

/-- Classified X events as dispatched by the switch on ev.type.
clientMessage carries whether ev.xclient.data.l[0] == wmDeleteMessage. -/
inductive XEv where
  | keyPress (keysym : Nat)
  | clientMessage (isWmDelete : Bool)
  | configureNotify (x y width height : Int)
  | visibilityNotify (v : VisState)
  | other
deriving DecidableEq

/-- The static keys[] table: keysym paired with the command it spawns. -/
def keys : List (Nat × Cmd) :=
  [(0x70, Cmd.pause_player),
   (0x73, Cmd.stop_player),
   (0xff51, Cmd.seek_back_small),
   (0xff53, Cmd.seek_forward_small),
   (0xff55, Cmd.seek_forward_large),
   (0xff56, Cmd.seek_back_large),
   (0x76, Cmd.toggle_subtitle)]

/-- Linear scan of the keys table (the for loop in keypress), first match
wins. -/
def scanKeys : List (Nat × Cmd) → Nat → Option Cmd
  | [], _ => none
  | (ks, c) :: rest, k => if k = ks then some c else scanKeys rest k

/-- keypress: returns the actions performed and the updated
omxplayerRunning value it returns (0 quit player, 1 do not quit). -/
def keypress (keysym : Nat) : List Act × Nat :=
  if keysym = quitKey then ([Act.spawn Cmd.quit_player], 0)
  else if keysym = fullScreenKey then ([Act.toggleFS], 1)
  else match scanKeys keys keysym with
    | some c => ([Act.spawn c], 1)
    | none => ([], 1)

/-- The mutable loop state of main: stored geometry wx wy ww wh, the
resize-event counter evc, omxplayerRunning (2 not started, 1 running,
0 stopped) and omxplayer_pid (none = still uninitialized). -/
structure St where
  wx : Int
  wy : Int
  ww : Int
  wh : Int
  evc : Nat
  running : Nat
  pid : Option Int
deriving DecidableEq

/-- Initial state at loop entry: evc=0, omxplayerRunning=2, pid never
written; geometry fields arbitrary (0), matching their uninitialized C
status — they are only read once evc > 0. -/
def St.init : St :=
  { wx := 0, wy := 0, ww := 0, wh := 0, evc := 0, running := 2, pid := none }

/-- One event of the XPending drain: the switch on ev.type. With sx=sy=1
the divisions in the ConfigureNotify arm are the identity. -/
def handleEvent (s : St) (e : XEv) : St × List Act :=
  match e with
  | XEv.keyPress k =>
      let r := keypress k
      ({ s with running := r.2 }, r.1)
  | XEv.clientMessage isWmDelete =>
      if isWmDelete then ({ s with running := 0 }, [Act.spawn Cmd.quit_player])
      else (s, [])
  | XEv.configureNotify x y width height =>
      if 0 ≤ x ∧ 0 ≤ y then
        ({ s with wx := x, wy := y, ww := width, wh := height, evc := s.evc + 1 }, [])
      else (s, [])
  | XEv.visibilityNotify v =>
      match v with
      | VisState.fullyObscured => (s, [Act.spawn Cmd.hide_video])
      | VisState.unobscured => (s, [Act.spawn Cmd.unhide_video])
      | VisState.partiallyObscured => (s, [])
  | XEv.other => (s, [])

/-- The while(XPending) drain: process all queued events in order. -/
def drainEvents : St → List XEv → St × List Act
  | s, [] => (s, [])
  | s, e :: rest =>
      let r1 := handleEvent s e
      let r2 := drainEvents r1.1 rest
      (r2.1, r1.2 ++ r2.2)

/-- snprintf(winParam,30,"%i %i %i %i", wx, wy, wx+ww, wy+wh). -/
def formatWinParam (wx wy ww wh : Int) : String :=
  toString wx ++ " " ++ toString wy ++ " " ++ toString (wx + ww) ++ " " ++ toString (wy + wh)

/-- First half of the select-timeout branch: if evc > 0 format winParam
and either spawn omxplayer (state 2; the fork result spawnPid is recorded
in omxplayer_pid and decides the next state) or format resizeParam and
spawn resize_player (state 1). -/
def settlePhase (s : St) (spawnPid : Int) : St × List Act :=
  if 0 < s.evc then
    let wp := formatWinParam s.wx s.wy s.ww s.wh
    if s.running = 2 then
      ({ s with pid := some spawnPid, running := if spawnPid < 1 then 0 else 1 },
       [Act.spawn (Cmd.omxplayer wp)])
    else
      (s, [Act.spawn (Cmd.resize_player ("string:" ++ wp))])
  else (s, [])

/-- Second half of the select-timeout branch: waitpid(-1, &st, WNOHANG)
returned rp. If a child was reaped (rp > 0) and omxplayerRunning==1 and
the pid matches omxplayer_pid, the player is finished. wifexited is only
used by the DEBUG diagnostic print, not by the transition. -/
def reapPhase (s : St) (rp : Int) (wifexited : Bool) : St :=
  if 0 < rp then
    if s.running = 1 ∧ s.pid = some rp then { s with running := 0, pid := some 0 }
    else s
  else s

/-- The whole case 0 (timeout) branch: settle, reset evc, reap. -/
def timeoutStep (s : St) (spawnPid rp : Int) (wifexited : Bool) : St × List Act :=
  let r := settlePhase s spawnPid
  (reapPhase { r.1 with evc := 0 } rp wifexited, r.2)

/-- Result of one select call: timeout (with the fork and waitpid oracle
results the branch will consume), readiness, or error (-1). -/
inductive PollRes where
  | timeout (spawnPid rp : Int) (wifexited : Bool)
  | ready
  | error
deriving DecidableEq

/-- One iteration of the while(omxplayerRunning>0) body: the select
switch, then the XPending drain (which runs in every case). -/
def iter (s : St) (p : PollRes) (evs : List XEv) : St × List Act :=
  let r1 :=
    match p with
    | PollRes.timeout sp rp we => timeoutStep s sp rp we
    | PollRes.ready => (s, [])
    | PollRes.error =>
        if s.running = 1 then ({ s with running := 0 }, [Act.spawn Cmd.quit_player])
        else (s, [])
  let r2 := drainEvents r1.1 evs
  (r2.1, r1.2 ++ r2.2)

/-- The supervisor loop: consume iteration inputs while running > 0. -/
def run : St → List (PollRes × List XEv) → St × List Act
  | s, [] => (s, [])
  | s, (p, evs) :: rest =>
      if 0 < s.running then
        let r1 := iter s p evs
        let r2 := run r1.1 rest
        (r2.1, r1.2 ++ r2.2)
      else (s, [])

/-- Observable steps of the post-loop shutdown code. -/
inductive ShutAct where
  | reapAttempt
  | sleep1
  | sigterm
  | sigkill
  | leakReport
  | stoppedUnexpectedly
deriving DecidableEq

/-- The while(i<3) wait loop: up to n waitpid attempts (oracle results
rs), breaking when the result is > 0, sleeping 1s otherwise. Returns the
actions, the final chld_pid value and the unconsumed oracle. -/
def awaitLoop : Nat → Int → List Int → List ShutAct × Int × List Int
  | 0, last, rs => ([], last, rs)
  | Nat.succ n, _, rs =>
      let v := rs.headD 0
      if 0 < v then ([ShutAct.reapAttempt], v, rs.tail)
      else
        let r := awaitLoop n v rs.tail
        (ShutAct.reapAttempt :: ShutAct.sleep1 :: r.1, r.2.1, r.2.2)

/-- The escalation run when omxplayer_pid != 0: three polite reap
attempts, then SIGTERM + 1s + recheck, then SIGKILL + 1s + recheck, then
the leak report. -/
def shutdownEsc (p : Int) (rs : List Int) : List ShutAct :=
  let r := awaitLoop 3 0 rs
  if r.2.1 ≠ p then
    let r2 := r.2.2.headD 0
    if r2 ≠ p then
      let r3 := r.2.2.tail.headD 0
      if r3 ≠ p then
        r.1 ++ [ShutAct.sigterm, ShutAct.sleep1, ShutAct.reapAttempt,
                ShutAct.sigkill, ShutAct.sleep1, ShutAct.reapAttempt, ShutAct.leakReport]
      else
        r.1 ++ [ShutAct.sigterm, ShutAct.sleep1, ShutAct.reapAttempt,
                ShutAct.sigkill, ShutAct.sleep1, ShutAct.reapAttempt]
    else r.1 ++ [ShutAct.sigterm, ShutAct.sleep1, ShutAct.reapAttempt]
  else r.1

/-- The post-loop if (omxplayer_pid != 0) decision. A none pid means the
C variable is read uninitialized: undefined behaviour, modelled as an
indeterminate outcome (none). -/
def shutdownActs : Option Int → List Int → Option (List ShutAct)
  | none, _ => none
  | some p, rs =>
      some (if p ≠ 0 then shutdownEsc p rs else [ShutAct.stoppedUnexpectedly])

/-- The outcome of a whole main invocation. -/
structure MainResult where
  exitCode : Nat
  trace : List Act
  shutdown : Option (List ShutAct)
deriving DecidableEq

/-- main: argc check (usage error exits 1), then the loop and the
shutdown; the final return is 0 unconditionally. -/
def xomxMain (argc : Nat) (inputs : List (PollRes × List XEv)) (shutReaps : List Int) :
    MainResult :=
  if argc ≠ 2 then { exitCode := 1, trace := [], shutdown := none }
  else
    let r := run St.init inputs
    { exitCode := 0, trace := r.2, shutdown := shutdownActs r.1.pid shutReaps }

/- Predicates used to state the claims. -/

/-- An event the drain classifies as a valid geometry change. -/
def isGoodGeom : XEv → Bool
  | XEv.configureNotify x y _ _ => decide (0 ≤ x ∧ 0 ≤ y)
  | _ => false

/-- Any ConfigureNotify event, valid or suppressed. -/
def isConfigure : XEv → Bool
  | XEv.configureNotify _ _ _ _ => true
  | _ => false

/-- Events whose handling spawns quit_player (quit key or WM delete). -/
def spawnsQuit : XEv → Bool
  | XEv.keyPress k => decide (k = quitKey)
  | XEv.clientMessage d => d
  | _ => false

/-- Count of start-player (omxplayer) spawns in a trace. -/
def countStart (l : List Act) : Nat :=
  l.countP (fun a => match a with
    | Act.spawn (Cmd.omxplayer _) => true
    | _ => false)

/-- Count of quit_player spawns in a trace. -/
def countQuit (l : List Act) : Nat :=
  l.countP (fun a => match a with
    | Act.spawn Cmd.quit_player => true
    | _ => false)

/-- Count of resize_player spawns in a trace. -/
def countResize (l : List Act) : Nat :=
  l.countP (fun a => match a with
    | Act.spawn (Cmd.resize_player _) => true
    | _ => false)

/- General lemmas about the drain and the loop. -/

theorem drainEvents_append (s : St) (a b : List XEv) :
    drainEvents s (a ++ b) =
      ((drainEvents (drainEvents s a).1 b).1,
       (drainEvents s a).2 ++ (drainEvents (drainEvents s a).1 b).2) := by
  induction a generalizing s with
  | nil => simp [drainEvents]
  | cons e rest ih => simp [drainEvents, ih]

theorem drain_goodGeom (s : St) (evs : List XEv)
    (h : ∀ e ∈ evs, isGoodGeom e = true) :
    (drainEvents s evs).2 = [] ∧
    (drainEvents s evs).1.running = s.running ∧
    (drainEvents s evs).1.pid = s.pid ∧
    (drainEvents s evs).1.evc = s.evc + evs.length := by
  induction evs generalizing s with
  | nil => simp [drainEvents]
  | cons e rest ih =>
      have he : isGoodGeom e = true := h e (by simp)
      have hr : ∀ e' ∈ rest, isGoodGeom e' = true := fun e' h' => h e' (by simp [h'])
      cases e with
      | configureNotify x y width height =>
          have hxy : 0 ≤ x ∧ 0 ≤ y := by
            simpa [isGoodGeom] using he
          have h1 : handleEvent s (XEv.configureNotify x y width height) =
              ({ s with wx := x, wy := y, ww := width, wh := height, evc := s.evc + 1 }, []) := by
            simp [handleEvent, hxy]
          have := ih ({ s with wx := x, wy := y, ww := width, wh := height, evc := s.evc + 1 }) hr
          simp [drainEvents, h1, this]
          omega
      | keyPress k => simp [isGoodGeom] at he
      | clientMessage d => simp [isGoodGeom] at he
      | visibilityNotify v => simp [isGoodGeom] at he
      | other => simp [isGoodGeom] at he

theorem run_stopped (s : St) (l : List (PollRes × List XEv)) (h : s.running = 0) :
    run s l = (s, []) := by
  cases l with
  | nil => simp [run]
  | cons p rest =>
      cases p with
      | mk a b => simp [run, h]

theorem drain_configs_silent (s : St) (post : List XEv)
    (h : ∀ e ∈ post, isConfigure e = true) :
    (drainEvents s post).2 = [] := by
  induction post generalizing s with
  | nil => simp [drainEvents]
  | cons e rest ih =>
      have he : isConfigure e = true := h e (by simp)
      have hr : ∀ e' ∈ rest, isConfigure e' = true := fun e' h' => h e' (by simp [h'])
      cases e with
      | configureNotify x y width height =>
          by_cases hc : 0 ≤ x ∧ 0 ≤ y
          · simp [drainEvents, handleEvent, hc, ih _ hr]
          · simp [drainEvents, handleEvent, hc, ih _ hr]
      | keyPress k => simp [isConfigure] at he
      | clientMessage d => simp [isConfigure] at he
      | visibilityNotify v => simp [isConfigure] at he
      | other => simp [isConfigure] at he

theorem reapPhase_evc (s : St) (rp : Int) (we : Bool) :
    (reapPhase s rp we).evc = s.evc := by
  unfold reapPhase
  split_ifs <;> rfl

/-- C7: a drained geometry-change event with negative x or y leaves the
stored geometry and the change counter unchanged and emits nothing; an
event with x ≥ 0 and y ≥ 0 stores the new geometry and increments the
counter. -/
theorem negative_geometry_ignored (s : St) (x y width height : Int) :
    ((x < 0 ∨ y < 0) →
      handleEvent s (XEv.configureNotify x y width height) = (s, [])) ∧
    (0 ≤ x → 0 ≤ y →
      handleEvent s (XEv.configureNotify x y width height) =
        ({ s with wx := x, wy := y, ww := width, wh := height, evc := s.evc + 1 }, [])) := by
  constructor
  · intro h
    have hc : ¬ (0 ≤ x ∧ 0 ≤ y) := by
      rintro ⟨hx, hy⟩
      rcases h with h | h <;> omega
    simp [handleEvent, hc]
  · intro hx hy
    simp [handleEvent, hx, hy]

/-- Witness for C7 at concrete inputs x = -1 (ignored) and (2,3) (stored). -/
theorem negative_geometry_ignored_witness :
    handleEvent St.init (XEv.configureNotify (-1) 0 5 5) = (St.init, []) ∧
    handleEvent St.init (XEv.configureNotify 2 3 4 5) =
      ({ St.init with wx := 2, wy := 3, ww := 4, wh := 5, evc := 1 }, []) :=
  ⟨(negative_geometry_ignored St.init (-1) 0 5 5).1 (Or.inl (by decide)),
   (negative_geometry_ignored St.init 2 3 4 5).2 (by decide) (by decide)⟩

/-- C4 (code-bug evidence): the fullscreen key received while the state
is NotStarted (2) sends the toggle request but also overwrites the
run-state with the keypress return value 1 (Running), because main
assigns keypress's return to omxplayerRunning unconditionally; the state
does not stay NotStarted. -/
theorem fullscreen_key_overwrites_notstarted :
    St.init.running = 2 ∧
    handleEvent St.init (XEv.keyPress fullScreenKey) =
      ({ St.init with running := 1 }, [Act.toggleFS]) := by
  constructor
  · rfl
  · decide

/-- C10: a quit key (or WM close request) arriving while the state is
still NotStarted spawns request-quit anyway and stops the loop: the
iteration ends with running = 0 and any further loop inputs are ignored. -/
theorem quit_before_start (s : St) (rest : List (PollRes × List XEv)) (e : XEv)
    (hrun : s.running = 2)
    (he : e = XEv.keyPress quitKey ∨ e = XEv.clientMessage true) :
    iter s PollRes.ready [e] = ({ s with running := 0 }, [Act.spawn Cmd.quit_player]) ∧
    run ({ s with running := 0 }) rest = ({ s with running := 0 }, []) := by
  refine ⟨?_, run_stopped _ rest rfl⟩
  rcases he with rfl | rfl
  · simp [iter, drainEvents, handleEvent, keypress]
  · simp [iter, drainEvents, handleEvent]

/-- Witness for C10: quit key at the initial state, no further inputs. -/
theorem quit_before_start_witness :
    iter St.init PollRes.ready [XEv.keyPress quitKey] =
      ({ St.init with running := 0 }, [Act.spawn Cmd.quit_player]) ∧
    run ({ St.init with running := 0 }) [] = ({ St.init with running := 0 }, []) :=
  quit_before_start St.init [] (XEv.keyPress quitKey) rfl (Or.inl rfl)

/-- C8: a VisibilityFullyHidden event spawns hide-overlay during the very
drain pass that dequeues it, and geometry events drained after it in the
same batch add no action and do not remove it: the batch trace is the
prefix trace followed by exactly the hide-overlay spawn, while the final
state still absorbs the geometry updates for a later settle. -/
theorem hide_overlay_immediate (s : St) (pre post : List XEv)
    (hpost : ∀ e ∈ post, isConfigure e = true) :
    (drainEvents s (pre ++ XEv.visibilityNotify VisState.fullyObscured :: post)).2 =
      (drainEvents s pre).2 ++ [Act.spawn Cmd.hide_video] ∧
    (drainEvents s (pre ++ XEv.visibilityNotify VisState.fullyObscured :: post)).1 =
      (drainEvents (drainEvents s pre).1 post).1 := by
  constructor
  · rw [drainEvents_append]
    simp [drainEvents, handleEvent, drain_configs_silent _ post hpost]
  · rw [drainEvents_append]
    simp [drainEvents, handleEvent]

/-- Witness for C8: hide event followed by one geometry event in the same
batch; the hide spawn survives and the geometry is stored. -/
theorem hide_overlay_immediate_witness :
    (drainEvents St.init
        ([] ++ XEv.visibilityNotify VisState.fullyObscured :: [XEv.configureNotify 1 1 2 2])).2 =
      (drainEvents St.init []).2 ++ [Act.spawn Cmd.hide_video] ∧
    (drainEvents St.init
        ([] ++ XEv.visibilityNotify VisState.fullyObscured :: [XEv.configureNotify 1 1 2 2])).1 =
      (drainEvents (drainEvents St.init []).1 [XEv.configureNotify 1 1 2 2]).1 :=
  hide_overlay_immediate St.init [] [XEv.configureNotify 1 1 2 2] (by decide)

theorem timeoutStep_settle (s : St) (sp rp : Int) (we : Bool) (hevc : 0 < s.evc) :
    (s.running = 2 → (timeoutStep s sp rp we).2 =
        [Act.spawn (Cmd.omxplayer (formatWinParam s.wx s.wy s.ww s.wh))]) ∧
    (s.running ≠ 2 → (timeoutStep s sp rp we).2 =
        [Act.spawn (Cmd.resize_player ("string:" ++ formatWinParam s.wx s.wy s.ww s.wh))]) ∧
    (timeoutStep s sp rp we).1.evc = 0 := by
  unfold timeoutStep settlePhase
  refine ⟨?_, ?_, ?_⟩
  · intro h
    simp [hevc, h]
  · intro h
    simp [hevc, h]
  · rw [reapPhase_evc]

/-- C1: after draining any non-empty sequence of valid geometry events,
the timeout branch issues exactly one command — start-player or
request-resize — whose window-size string is formatted from the geometry
of the last event of the sequence, and leaves the change counter at 0. -/
theorem settle_uses_last_geometry (s : St) (pre : List XEv)
    (x y width height sp rp : Int) (we : Bool) (r : St × List Act)
    (hr : r = timeoutStep
        (drainEvents s (pre ++ [XEv.configureNotify x y width height])).1 sp rp we)
    (hrun : s.running = 1 ∨ s.running = 2)
    (hpre : ∀ e ∈ pre, isGoodGeom e = true) (hx : 0 ≤ x) (hy : 0 ≤ y) :
    (r.2 = [Act.spawn (Cmd.omxplayer (formatWinParam x y width height))] ∨
     r.2 = [Act.spawn (Cmd.resize_player ("string:" ++ formatWinParam x y width height))]) ∧
    r.1.evc = 0 := by
  obtain ⟨htr, hrunp, hpidp, hevcp⟩ := drain_goodGeom s pre hpre
  have hstate : (drainEvents s (pre ++ [XEv.configureNotify x y width height])).1 =
      { (drainEvents s pre).1 with wx := x, wy := y, ww := width, wh := height, evc := (drainEvents s pre).1.evc + 1 } := by
    rw [drainEvents_append]
    simp [drainEvents, handleEvent, hx, hy]
  rw [hstate] at hr
  have hset := timeoutStep_settle
    ({ (drainEvents s pre).1 with wx := x, wy := y, ww := width, wh := height, evc := (drainEvents s pre).1.evc + 1 })
    sp rp we (by simp)
  subst hr
  rcases hrun with h1 | h1
  · refine ⟨Or.inr (hset.2.1 ?_), hset.2.2⟩
    show ¬ (drainEvents s pre).1.running = 2
    rw [hrunp, h1]
    omega
  · refine ⟨Or.inl (hset.1 ?_), hset.2.2⟩
    show (drainEvents s pre).1.running = 2
    rw [hrunp, h1]

/-- Witness for C1: two geometry events then a timeout from the initial
state; the single command carries the second event's geometry. -/
theorem settle_uses_last_geometry_witness :
    ((timeoutStep (drainEvents St.init
        ([XEv.configureNotify 1 2 3 4] ++ [XEv.configureNotify 5 6 7 8])).1 100 0 false).2 =
      [Act.spawn (Cmd.omxplayer (formatWinParam 5 6 7 8))] ∨
     (timeoutStep (drainEvents St.init
        ([XEv.configureNotify 1 2 3 4] ++ [XEv.configureNotify 5 6 7 8])).1 100 0 false).2 =
      [Act.spawn (Cmd.resize_player ("string:" ++ formatWinParam 5 6 7 8))]) ∧
    (timeoutStep (drainEvents St.init
        ([XEv.configureNotify 1 2 3 4] ++ [XEv.configureNotify 5 6 7 8])).1 100 0 false).1.evc = 0 :=
  settle_uses_last_geometry St.init [XEv.configureNotify 1 2 3 4] 5 6 7 8 100 0 false _
    rfl (Or.inr rfl) (by decide) (by decide) (by decide)

/-- C3 counterexample: in the Running state with supervised pid 100, a
reap of child 100 with WIFEXITED false (terminated by a signal) still
transitions the state to Stopped — the transition condition does not
require normal termination, contrary to the claim. -/
theorem reap_signal_termination_cex :
    (reapPhase { wx := 0, wy := 0, ww := 0, wh := 0, evc := 0, running := 1, pid := some 100 }
        100 false).running = 0 ∧
    ¬ (reapPhase { wx := 0, wy := 0, ww := 0, wh := 0, evc := 0, running := 1, pid := some 100 }
        100 false).running = 1 := by
  decide

/-- C3 amended: at the timeout reap step the state transitions from
Running to Stopped exactly when a child was reaped (result > 0) and its
id matches the supervised process id — regardless of whether the child
exited normally or was terminated by a signal (the WIFEXITED test only
guards the debug print). -/
theorem reap_transition_any_termination (s : St) (p rp : Int) (we : Bool)
    (hrun : s.running = 1) (hpid : s.pid = some p) :
    (reapPhase s rp we).running = 0 ↔ (0 < rp ∧ rp = p) := by
  constructor
  · intro h
    by_contra hc
    have hne : reapPhase s rp we = s := by
      unfold reapPhase
      by_cases h1 : 0 < rp
      · rw [if_pos h1, if_neg]
        rintro ⟨-, hp2⟩
        exact hc ⟨h1, (Option.some.inj (hpid.symm.trans hp2)).symm⟩
      · rw [if_neg h1]
    rw [hne, hrun] at h
    omega
  · rintro ⟨h1, rfl⟩
    unfold reapPhase
    rw [if_pos h1, if_pos ⟨hrun, hpid⟩]

/-- Witness for the amended C3 at pid 7, reap result 7, signal exit. -/
theorem reap_transition_any_termination_witness :
    (reapPhase { wx := 0, wy := 0, ww := 0, wh := 0, evc := 0, running := 1, pid := some 7 }
        7 false).running = 0 ↔ (0 < (7 : Int) ∧ (7 : Int) = 7) :=
  reap_transition_any_termination
    { wx := 0, wy := 0, ww := 0, wh := 0, evc := 0, running := 1, pid := some 7 }
    7 7 false rfl rfl

/- Counting lemmas for the key router and the drain. -/

theorem scanKeys_mem (l : List (Nat × Cmd)) (k : Nat) (c : Cmd)
    (h : scanKeys l k = some c) : ∃ p ∈ l, p.2 = c := by
  induction l with
  | nil => simp [scanKeys] at h
  | cons a rest ih =>
      cases a with
      | mk ks cc =>
          by_cases hk : k = ks
          · rw [scanKeys, if_pos hk] at h
            exact ⟨(ks, cc), by simp, Option.some.inj h⟩
          · rw [scanKeys, if_neg hk] at h
            obtain ⟨p, hp, hpc⟩ := ih h
            exact ⟨p, by simp [hp], hpc⟩

theorem table_cmd_counts (k : Nat) (c : Cmd) (h : scanKeys keys k = some c) :
    countQuit [Act.spawn c] = 0 ∧ countResize [Act.spawn c] = 0 ∧
    countStart [Act.spawn c] = 0 := by
  obtain ⟨p, hp, rfl⟩ := scanKeys_mem keys k c h
  fin_cases hp <;> refine ⟨by decide, by decide, by decide⟩

theorem keypress_spec (k : Nat) :
    countQuit (keypress k).1 = (if k = quitKey then 1 else 0) ∧
    countStart (keypress k).1 = 0 ∧
    countResize (keypress k).1 = 0 ∧
    (keypress k).2 = (if k = quitKey then 0 else 1) := by
  unfold keypress
  by_cases hq : k = quitKey
  · simp only [if_pos hq]
    refine ⟨by decide, by decide, by decide, by trivial⟩
  · by_cases hf : k = fullScreenKey
    · simp only [if_neg hq, if_pos hf]
      refine ⟨by decide, by decide, by decide, by trivial⟩
    · simp only [if_neg hq, if_neg hf]
      cases hs : scanKeys keys k with
      | none => refine ⟨by decide, by decide, by decide, by rfl⟩
      | some c =>
          have h3 := table_cmd_counts k c hs
          exact ⟨h3.1, h3.2.2, h3.2.1, rfl⟩

theorem handleEvent_counts (s : St) (e : XEv) :
    countStart (handleEvent s e).2 = 0 ∧
    countResize (handleEvent s e).2 = 0 ∧
    (spawnsQuit e = false →
      countQuit (handleEvent s e).2 = 0 ∧
      (s.running = 1 → (handleEvent s e).1.running = 1)) ∧
    ((handleEvent s e).1.running = 2 → s.running = 2) := by
  cases e with
  | keyPress k =>
      have hk := keypress_spec k
      refine ⟨hk.2.1, hk.2.2.1, fun hsq => ?_, fun h2 => ?_⟩
      · have hq : ¬ k = quitKey := by simpa [spawnsQuit] using hsq
        refine ⟨?_, fun _ => ?_⟩
        · show countQuit (keypress k).1 = 0
          rw [hk.1, if_neg hq]
        · show (keypress k).2 = 1
          rw [hk.2.2.2, if_neg hq]
      · exfalso
        have h2a : (keypress k).2 = 2 := h2
        rw [hk.2.2.2] at h2a
        by_cases hq : k = quitKey
        · rw [if_pos hq] at h2a
          omega
        · rw [if_neg hq] at h2a
          omega
  | clientMessage d =>
      cases d with
      | false => exact ⟨rfl, rfl, fun _ => ⟨rfl, fun h => h⟩, fun h => h⟩
      | true =>
          refine ⟨rfl, rfl, fun hsq => ?_, fun h2 => ?_⟩
          · simp [spawnsQuit] at hsq
          · simp [handleEvent] at h2
  | configureNotify x y width height =>
      by_cases hc : 0 ≤ x ∧ 0 ≤ y
      · simp only [handleEvent, if_pos hc]
        exact ⟨rfl, rfl, fun _ => ⟨rfl, fun h => h⟩, fun h => h⟩
      · simp only [handleEvent, if_neg hc]
        exact ⟨rfl, rfl, fun _ => ⟨rfl, fun h => h⟩, fun h => h⟩
  | visibilityNotify v =>
      cases v with
      | unobscured => exact ⟨rfl, rfl, fun _ => ⟨rfl, fun h => h⟩, fun h => h⟩
      | partiallyObscured => exact ⟨rfl, rfl, fun _ => ⟨rfl, fun h => h⟩, fun h => h⟩
      | fullyObscured => exact ⟨rfl, rfl, fun _ => ⟨rfl, fun h => h⟩, fun h => h⟩
  | other => exact ⟨rfl, rfl, fun _ => ⟨rfl, fun h => h⟩, fun h => h⟩

theorem drain_counts (s : St) (evs : List XEv) :
    countStart (drainEvents s evs).2 = 0 ∧
    countResize (drainEvents s evs).2 = 0 ∧
    ((∀ e ∈ evs, spawnsQuit e = false) →
      countQuit (drainEvents s evs).2 = 0 ∧
      (s.running = 1 → (drainEvents s evs).1.running = 1)) ∧
    ((drainEvents s evs).1.running = 2 → s.running = 2) := by
  induction evs generalizing s with
  | nil => exact ⟨rfl, rfl, fun _ => ⟨rfl, fun h => h⟩, fun h => h⟩
  | cons e rest ih =>
      have h1 := handleEvent_counts s e
      have h2 := ih (handleEvent s e).1
      have hd : drainEvents s (e :: rest) =
          ((drainEvents (handleEvent s e).1 rest).1,
           (handleEvent s e).2 ++ (drainEvents (handleEvent s e).1 rest).2) := rfl
      rw [hd]
      refine ⟨?_, ?_, ?_, ?_⟩
      · simp only [countStart] at h1 h2 ⊢
        rw [List.countP_append, h1.1, h2.1]
      · simp only [countResize] at h1 h2 ⊢
        rw [List.countP_append, h1.2.1, h2.2.1]
      · intro hq
        have hqe : spawnsQuit e = false := hq e (by simp)
        have hqr : ∀ e' ∈ rest, spawnsQuit e' = false := fun e' h' => hq e' (by simp [h'])
        constructor
        · simp only [countQuit] at h1 h2 ⊢
          rw [List.countP_append, (h1.2.2.1 hqe).1, (h2.2.2.1 hqr).1]
        · intro hr
          exact (h2.2.2.1 hqr).2 ((h1.2.2.1 hqe).2 hr)
      · intro hr
        exact h1.2.2.2 (h2.2.2.2 hr)

/-- C5: a quit key processed while the state is Running, with any
quit-free prefix of events in the same drain batch, spawns request-quit
exactly once, ends the drain pass with the state Stopped, issues no
resize command for any pending geometry changes, and the loop consumes
no further inputs. -/
theorem quit_while_running (s : St) (pre : List XEv)
    (rest : List (PollRes × List XEv)) (r : St × List Act)
    (hr : r = iter s PollRes.ready (pre ++ [XEv.keyPress quitKey]))
    (hrun : s.running = 1)
    (hpre : ∀ e ∈ pre, spawnsQuit e = false) :
    countQuit r.2 = 1 ∧ r.1.running = 0 ∧ countResize r.2 = 0 ∧
    run r.1 rest = (r.1, []) := by
  have hit : iter s PollRes.ready (pre ++ [XEv.keyPress quitKey]) =
      ((drainEvents s (pre ++ [XEv.keyPress quitKey])).1,
       (drainEvents s (pre ++ [XEv.keyPress quitKey])).2) := rfl
  have happ := drainEvents_append s pre [XEv.keyPress quitKey]
  have hq : drainEvents (drainEvents s pre).1 [XEv.keyPress quitKey] =
      ({ (drainEvents s pre).1 with running := 0 }, [Act.spawn Cmd.quit_player]) := by
    simp [drainEvents, handleEvent, keypress]
  have hdc := drain_counts s pre
  have hq0 := hdc.2.2.1 hpre
  subst hr
  rw [hit, happ, hq]
  refine ⟨?_, rfl, ?_, run_stopped _ rest rfl⟩
  · simp only [countQuit] at hq0 ⊢
    rw [List.countP_append, hq0.1]
    decide
  · simp only [countResize] at hdc ⊢
    rw [List.countP_append, hdc.2.1]
    decide

/-- Witness for C5: one pending geometry event, then the quit key, from a
Running state; exactly one quit spawn, no resize, loop over. -/
theorem quit_while_running_witness :
    countQuit (iter { wx := 0, wy := 0, ww := 0, wh := 0, evc := 0, running := 1, pid := some 9 }
        PollRes.ready ([XEv.configureNotify 1 1 2 2] ++ [XEv.keyPress quitKey])).2 = 1 ∧
    (iter { wx := 0, wy := 0, ww := 0, wh := 0, evc := 0, running := 1, pid := some 9 }
        PollRes.ready ([XEv.configureNotify 1 1 2 2] ++ [XEv.keyPress quitKey])).1.running = 0 ∧
    countResize (iter { wx := 0, wy := 0, ww := 0, wh := 0, evc := 0, running := 1, pid := some 9 }
        PollRes.ready ([XEv.configureNotify 1 1 2 2] ++ [XEv.keyPress quitKey])).2 = 0 ∧
    run (iter { wx := 0, wy := 0, ww := 0, wh := 0, evc := 0, running := 1, pid := some 9 }
        PollRes.ready ([XEv.configureNotify 1 1 2 2] ++ [XEv.keyPress quitKey])).1 [] =
      ((iter { wx := 0, wy := 0, ww := 0, wh := 0, evc := 0, running := 1, pid := some 9 }
        PollRes.ready ([XEv.configureNotify 1 1 2 2] ++ [XEv.keyPress quitKey])).1, []) :=
  quit_while_running
    { wx := 0, wy := 0, ww := 0, wh := 0, evc := 0, running := 1, pid := some 9 }
    [XEv.configureNotify 1 1 2 2] [] _ rfl rfl (by decide)

theorem countStart_append (a b : List Act) :
    countStart (a ++ b) = countStart a + countStart b := by
  simp [countStart, List.countP_append]

theorem reapPhase_running_two (s : St) (rp : Int) (we : Bool)
    (h : (reapPhase s rp we).running = 2) : s.running = 2 := by
  unfold reapPhase at h
  by_cases h1 : 0 < rp
  · by_cases h2 : s.running = 1 ∧ s.pid = some rp
    · rw [if_pos h1, if_pos h2] at h
      have h0 : (0 : Nat) = 2 := h
      omega
    · rwa [if_pos h1, if_neg h2] at h
  · rwa [if_neg h1] at h

theorem timeoutStep_acts (s : St) (sp rp : Int) (we : Bool) :
    (timeoutStep s sp rp we).2 = (settlePhase s sp).2 := rfl

theorem timeoutStep_state (s : St) (sp rp : Int) (we : Bool) :
    (timeoutStep s sp rp we).1 = reapPhase { (settlePhase s sp).1 with evc := 0 } rp we := rfl

theorem settlePhase_counts (s : St) (sp : Int) :
    countStart (settlePhase s sp).2 = (if 0 < s.evc ∧ s.running = 2 then 1 else 0) ∧
    ((settlePhase s sp).1.running = 2 → s.running = 2 ∧ ¬(0 < s.evc ∧ s.running = 2)) := by
  by_cases hevc : 0 < s.evc
  · by_cases hrun2 : s.running = 2
    · have hset : settlePhase s sp =
          ({ s with pid := some sp, running := if sp < 1 then 0 else 1 },
           [Act.spawn (Cmd.omxplayer (formatWinParam s.wx s.wy s.ww s.wh))]) := by
        simp [settlePhase, hevc, hrun2]
      rw [hset]
      have hcond : 0 < s.evc ∧ s.running = 2 := ⟨hevc, hrun2⟩
      refine ⟨by rw [if_pos hcond]; rfl, fun h2 => ?_⟩
      exfalso
      have h3 : (if sp < 1 then (0 : Nat) else 1) = 2 := h2
      split_ifs at h3 <;> omega
    · have hset : settlePhase s sp =
          (s, [Act.spawn (Cmd.resize_player ("string:" ++ formatWinParam s.wx s.wy s.ww s.wh))]) := by
        simp [settlePhase, hevc, hrun2]
      rw [hset]
      exact ⟨by rw [if_neg (by tauto)]; rfl, fun h2 => ⟨h2, by tauto⟩⟩
  · have hset : settlePhase s sp = (s, []) := by
      simp [settlePhase, hevc]
    rw [hset]
    exact ⟨by rw [if_neg (by tauto)]; rfl, fun h2 => ⟨h2, by tauto⟩⟩

theorem timeoutStep_counts (s : St) (sp rp : Int) (we : Bool) :
    countStart (timeoutStep s sp rp we).2 ≤ (if s.running = 2 then 1 else 0) ∧
    ((timeoutStep s sp rp we).1.running = 2 →
      s.running = 2 ∧ countStart (timeoutStep s sp rp we).2 = 0) := by
  have hA := settlePhase_counts s sp
  constructor
  · rw [timeoutStep_acts, hA.1]
    by_cases h : 0 < s.evc ∧ s.running = 2
    · rw [if_pos h, if_pos h.2]
    · rw [if_neg h]
      exact Nat.zero_le _
  · intro h2
    rw [timeoutStep_state] at h2
    have h3 := reapPhase_running_two _ rp we h2
    have h4 : (settlePhase s sp).1.running = 2 := h3
    have h5 := hA.2 h4
    refine ⟨h5.1, ?_⟩
    rw [timeoutStep_acts, hA.1, if_neg h5.2]

theorem iter_counts (s : St) (p : PollRes) (evs : List XEv) :
    countStart (iter s p evs).2 ≤ (if s.running = 2 then 1 else 0) ∧
    ((iter s p evs).1.running = 2 → s.running = 2 ∧ countStart (iter s p evs).2 = 0) := by
  cases p with
  | timeout sp rp we =>
      have hT := timeoutStep_counts s sp rp we
      have hD := drain_counts (timeoutStep s sp rp we).1 evs
      have hact : (iter s (PollRes.timeout sp rp we) evs).2 =
          (timeoutStep s sp rp we).2 ++ (drainEvents (timeoutStep s sp rp we).1 evs).2 := rfl
      have hst : (iter s (PollRes.timeout sp rp we) evs).1 =
          (drainEvents (timeoutStep s sp rp we).1 evs).1 := rfl
      constructor
      · rw [hact, countStart_append, hD.1]
        simpa using hT.1
      · intro h2
        rw [hst] at h2
        have h4 := hT.2 (hD.2.2.2 h2)
        refine ⟨h4.1, ?_⟩
        rw [hact, countStart_append, hD.1, h4.2]
  | ready =>
      have hD := drain_counts s evs
      have hact : (iter s PollRes.ready evs).2 = [] ++ (drainEvents s evs).2 := rfl
      have hst : (iter s PollRes.ready evs).1 = (drainEvents s evs).1 := rfl
      constructor
      · rw [hact, countStart_append, hD.1]
        simp [countStart]
      · intro h2
        rw [hst] at h2
        refine ⟨hD.2.2.2 h2, ?_⟩
        rw [hact, countStart_append, hD.1]
        rfl
  | error =>
      by_cases h1 : s.running = 1
      · have he : iter s PollRes.error evs =
            ((drainEvents { s with running := 0 } evs).1,
             [Act.spawn Cmd.quit_player] ++ (drainEvents { s with running := 0 } evs).2) := by
          simp [iter, h1]
        have hD := drain_counts { s with running := 0 } evs
        rw [he]
        constructor
        · rw [countStart_append, hD.1]
          simp [countStart]
        · intro h2
          exfalso
          have h3 := hD.2.2.2 h2
          have h4 : (0 : Nat) = 2 := h3
          omega
      · have he : iter s PollRes.error evs =
            ((drainEvents s evs).1, [] ++ (drainEvents s evs).2) := by
          simp [iter, h1]
        have hD := drain_counts s evs
        rw [he]
        constructor
        · rw [countStart_append, hD.1]
          simp [countStart]
        · intro h2
          refine ⟨hD.2.2.2 h2, ?_⟩
          rw [countStart_append, hD.1]
          rfl

theorem run_counts (s : St) (inputs : List (PollRes × List XEv)) :
    countStart (run s inputs).2 ≤ (if s.running = 2 then 1 else 0) ∧
    ((run s inputs).1.running = 2 → s.running = 2) := by
  induction inputs generalizing s with
  | nil => exact ⟨Nat.zero_le _, fun h => h⟩
  | cons pe rest ih =>
      cases pe with
      | mk p evs =>
          by_cases hpos : 0 < s.running
          · have he : run s ((p, evs) :: rest) =
                ((run (iter s p evs).1 rest).1,
                 (iter s p evs).2 ++ (run (iter s p evs).1 rest).2) := by
              simp [run, hpos]
            have hI := iter_counts s p evs
            have hR := ih (iter s p evs).1
            rw [he]
            constructor
            · rw [countStart_append]
              by_cases h2 : s.running = 2
              · rw [if_pos h2]
                by_cases h3 : (iter s p evs).1.running = 2
                · have h4 := (hI.2 h3).2
                  have h5 := hR.1
                  rw [if_pos h3] at h5
                  omega
                · have h5 := hR.1
                  rw [if_neg h3] at h5
                  have h6 := hI.1
                  rw [if_pos h2] at h6
                  omega
              · rw [if_neg h2]
                have h6 := hI.1
                rw [if_neg h2] at h6
                have h7 : ¬ (iter s p evs).1.running = 2 := fun hcon => h2 (hI.2 hcon).1
                have h5 := hR.1
                rw [if_neg h7] at h5
                omega
            · intro h2
              exact (hI.2 (hR.2 h2)).1
          · have he : run s ((p, evs) :: rest) = (s, []) := by
              simp [run, hpos]
            rw [he]
            exact ⟨Nat.zero_le _, fun h => h⟩

/-- C2: with a non-zero change counter at a timeout, the settle while
NotStarted (2) spawns start-player, records the fork result as the
supervised pid, and moves to Running on a valid pid (≥ 1) or Stopped on
an invalid one; a settle while Running (1) spawns request-resize and
changes nothing; and along any whole run from the initial state the
start-player command is spawned at most once. -/
theorem first_settle_starts_then_resizes (s : St) (sp : Int)
    (inputs : List (PollRes × List XEv)) (hevc : 0 < s.evc) :
    (s.running = 2 →
      settlePhase s sp =
        ({ s with pid := some sp, running := if sp < 1 then 0 else 1 },
         [Act.spawn (Cmd.omxplayer (formatWinParam s.wx s.wy s.ww s.wh))])) ∧
    (s.running = 1 →
      settlePhase s sp =
        (s, [Act.spawn (Cmd.resize_player ("string:" ++ formatWinParam s.wx s.wy s.ww s.wh))])) ∧
    countStart (run St.init inputs).2 ≤ 1 := by
  refine ⟨fun h => by simp [settlePhase, hevc, h], fun h => ?_, ?_⟩
  · have hne : ¬ s.running = 2 := by
      rw [h]
      omega
    simp [settlePhase, hevc, hne]
  · have h1 := (run_counts St.init inputs).1
    rw [if_pos (show St.init.running = 2 from rfl)] at h1
    exact h1

/-- Witness for C2 at a concrete NotStarted state with one pending
geometry change and an empty run. -/
theorem first_settle_starts_then_resizes_witness :
    (({ wx := 1, wy := 2, ww := 3, wh := 4, evc := 1, running := 2, pid := none } : St).running = 2 →
      settlePhase { wx := 1, wy := 2, ww := 3, wh := 4, evc := 1, running := 2, pid := none } 50 =
        ({ ({ wx := 1, wy := 2, ww := 3, wh := 4, evc := 1, running := 2, pid := none } : St) with
            pid := some 50, running := if (50 : Int) < 1 then 0 else 1 },
         [Act.spawn (Cmd.omxplayer (formatWinParam 1 2 3 4))])) ∧
    (({ wx := 1, wy := 2, ww := 3, wh := 4, evc := 1, running := 2, pid := none } : St).running = 1 →
      settlePhase { wx := 1, wy := 2, ww := 3, wh := 4, evc := 1, running := 2, pid := none } 50 =
        ({ wx := 1, wy := 2, ww := 3, wh := 4, evc := 1, running := 2, pid := none },
         [Act.spawn (Cmd.resize_player ("string:" ++ formatWinParam 1 2 3 4))])) ∧
    countStart (run St.init []).2 ≤ 1 :=
  first_settle_starts_then_resizes
    { wx := 1, wy := 2, ww := 3, wh := 4, evc := 1, running := 2, pid := none } 50 [] (by decide)

theorem headD_le (rs : List Int) (h : ∀ v ∈ rs, v ≤ 0) :
    rs.headD 0 ≤ 0 ∧ ∀ v ∈ rs.tail, v ≤ 0 := by
  cases rs with
  | nil => exact ⟨le_refl 0, by simp⟩
  | cons a t => exact ⟨h a (by simp), fun v hv => h v (List.mem_cons_of_mem a hv)⟩

/-- C6 counterexample: a run in which the player is spawned (pid 100 is
assigned, one start-player spawn in the trace) and then reaped during the
loop ends with the pid variable reset to 0, so the post-loop code takes
the "stopped unexpectedly" diagnostic branch and skips the escalation —
although a supervised process id *was* assigned. This refutes "the
diagnostic is reported if and only if no supervised process id was ever
assigned". -/
theorem shutdown_diag_after_inloop_reap_cex :
    (run St.init
        [(PollRes.ready, [XEv.configureNotify 0 0 10 10]),
         (PollRes.timeout 100 0 false, []),
         (PollRes.timeout 0 100 true, [])]).1.pid = some 0 ∧
    ¬ (run St.init
        [(PollRes.ready, [XEv.configureNotify 0 0 10 10]),
         (PollRes.timeout 100 0 false, []),
         (PollRes.timeout 0 100 true, [])]).1.pid = none ∧
    countStart (run St.init
        [(PollRes.ready, [XEv.configureNotify 0 0 10 10]),
         (PollRes.timeout 100 0 false, []),
         (PollRes.timeout 0 100 true, [])]).2 = 1 ∧
    shutdownActs (run St.init
        [(PollRes.ready, [XEv.configureNotify 0 0 10 10]),
         (PollRes.timeout 100 0 false, []),
         (PollRes.timeout 0 100 true, [])]).1.pid [] =
      some [ShutAct.stoppedUnexpectedly] := by
  refine ⟨by decide, by decide, by decide, by decide⟩

/-- C6 amended: the post-loop decision is taken on the *final value* of
the pid variable, not on whether a pid was ever assigned: the escalation
(3 reap attempts with 1s sleeps, then SIGTERM + 1s + recheck, then
SIGKILL + 1s + recheck, then the leak report — 5 sleeps in the
never-reaped scenario) runs exactly when the final pid value is nonzero,
and the "stopped unexpectedly" diagnostic is reported exactly when that
final value is 0 (which also happens after an in-loop reap). -/
theorem shutdown_runs_on_final_pid (p : Int) (rs : List Int)
    (hp : 0 < p) (hfail : ∀ v ∈ rs, v ≤ 0) :
    shutdownActs (some p) rs =
      some [ShutAct.reapAttempt, ShutAct.sleep1, ShutAct.reapAttempt, ShutAct.sleep1,
            ShutAct.reapAttempt, ShutAct.sleep1, ShutAct.sigterm, ShutAct.sleep1,
            ShutAct.reapAttempt, ShutAct.sigkill, ShutAct.sleep1, ShutAct.reapAttempt,
            ShutAct.leakReport] ∧
    shutdownActs (some 0) rs = some [ShutAct.stoppedUnexpectedly] := by
  have h1 := headD_le rs hfail
  have h2 := headD_le rs.tail h1.2
  have h3 := headD_le rs.tail.tail h2.2
  have h4 := headD_le rs.tail.tail.tail h3.2
  have h5 := headD_le rs.tail.tail.tail.tail h4.2
  constructor
  · have ha : awaitLoop 3 0 rs =
        ([ShutAct.reapAttempt, ShutAct.sleep1, ShutAct.reapAttempt, ShutAct.sleep1,
          ShutAct.reapAttempt, ShutAct.sleep1], rs.tail.tail.headD 0, rs.tail.tail.tail) := by
      simp only [awaitLoop]
      rw [if_neg (not_lt.mpr h1.1), if_neg (not_lt.mpr h2.1), if_neg (not_lt.mpr h3.1)]
    have n1 : rs.tail.tail.headD 0 ≠ p := by
      have := h3.1
      omega
    have n2 : rs.tail.tail.tail.headD 0 ≠ p := by
      have := h4.1
      omega
    have n3 : rs.tail.tail.tail.tail.headD 0 ≠ p := by
      have := h5.1
      omega
    have hp0 : p ≠ 0 := by omega
    simp only [shutdownActs, shutdownEsc, ha]
    rw [if_pos hp0, if_pos n1, if_pos n2, if_pos n3]
    rfl
  · simp [shutdownActs]

/-- Witness for the amended C6 at pid 5 with an always-failing reap
oracle: the full escalation runs (five 1-second sleeps), and a final pid
of 0 yields only the diagnostic. -/
theorem shutdown_runs_on_final_pid_witness :
    shutdownActs (some 5) [] =
      some [ShutAct.reapAttempt, ShutAct.sleep1, ShutAct.reapAttempt, ShutAct.sleep1,
            ShutAct.reapAttempt, ShutAct.sleep1, ShutAct.sigterm, ShutAct.sleep1,
            ShutAct.reapAttempt, ShutAct.sigkill, ShutAct.sleep1, ShutAct.reapAttempt,
            ShutAct.leakReport] ∧
    shutdownActs (some 0) [] = some [ShutAct.stoppedUnexpectedly] :=
  shutdown_runs_on_final_pid 5 [] (by decide) (by simp)

/-- C9: the controller's own exit status is 1 exactly when the argument
count is wrong (and then no loop iteration and no shutdown runs), and 0
in every other run, whatever the loop inputs and shutdown reap results
are. -/
theorem exit_code_usage_only (argc : Nat) (inputs : List (PollRes × List XEv))
    (shutReaps : List Int) :
    (xomxMain argc inputs shutReaps).exitCode = (if argc = 2 then 0 else 1) ∧
    (xomxMain 3 inputs shutReaps).trace = [] ∧
    (xomxMain 3 inputs shutReaps).shutdown = none := by
  refine ⟨?_, rfl, rfl⟩
  by_cases h : argc = 2
  · simp [xomxMain, h]
  · simp [xomxMain, h]
